import Mathlib

/-!
Shallow embedding of the bounded-concurrency session admission controller,
thermal classifier and percentile-based benchmark aggregation found in the
`dareoke` repository (inference server, benchmark harnesses and the dual-SKU
load-test comparison).  Python floats are modelled as rationals, machine
dictionaries as association lists, and the `asyncio` entry points as pure
state-passing functions.
-/

/-- Python's `sorted` on a list of floats: a freshly sorted copy. -/
def pySort (l : List ℚ) : List ℚ :=
  l.insertionSort (· ≤ ·)

/-- Python's `min` over a non-empty list (0 on the empty list, unused there). -/
def pyMin : List ℚ → ℚ
  | [] => 0
  | x :: xs => xs.foldl min x

/-- Python's `max` over a non-empty list (0 on the empty list, unused there). -/
def pyMax : List ℚ → ℚ
  | [] => 0
  | x :: xs => xs.foldl max x

/-- `statistics.mean` over a list of floats, as the sum divided by the length. -/
def pyMean (l : List ℚ) : ℚ :=
  l.sum / l.length

/-- Python's `int(...)` applied to a float: truncation toward zero. -/
def pyInt (q : ℚ) : ℤ :=
  if 0 ≤ q then ⌊q⌋ else -⌊-q⌋

/-- Python list indexing `l[i]`, including the negative-index-from-the-end
convention; out-of-range accesses (an `IndexError` in Python) default to 0 and
are never reached by the properties proved below. -/
def pyGet (l : List ℚ) (i : ℤ) : ℚ :=
  if 0 ≤ i then l.getD i.toNat 0 else l.getD (l.length - (-i).toNat) 0

namespace BenchmarkLLM

/-- `percentile` from `forge-cognition-prototype/benchmark/benchmark_llm.py`
(lines 83-91): linear interpolation between the two bracketing order
statistics of a freshly sorted copy of the buffer; 0 on an empty buffer. -/
def percentile (data : List ℚ) (p : ℚ) : ℚ :=
  if data = [] then 0
  else
    let sorted_data := pySort data
    let k : ℚ := ((sorted_data.length : ℚ) - 1) * (p / 100)
    let f : ℤ := pyInt k
    let c : ℤ := if f + 1 < (sorted_data.length : ℤ) then f + 1 else f
    pyGet sorted_data f + (pyGet sorted_data c - pyGet sorted_data f) * (k - (f : ℚ))

end BenchmarkLLM

namespace InferenceBenchmark

/-- `InferenceBenchmark.percentile` from
`honeywell-forge-lab/benchmarks/benchmark_inference.py` (lines 79-85): the
order statistic at the truncated index `int(n * p / 100)`, clamped to the last
element; 0 on an empty buffer.  No interpolation is performed. -/
def percentile (data : List ℚ) (p : ℚ) : ℚ :=
  if data = [] then 0
  else
    let sorted_data := pySort data
    let index : ℤ := pyInt ((sorted_data.length : ℚ) * p / 100)
    pyGet sorted_data (min index ((sorted_data.length : ℤ) - 1))

end InferenceBenchmark

/-- Modelled from the spec (§4.1), for comparison with the code: the linearly
interpolated order statistic.  For sorted array `s` of length `n`, with
`k = (n-1) * p/100`, `f = floor k`, `c = min (f+1) (n-1)`, the result is
`s f + (s c - s f) * (k - f)`. -/
def specLinearInterpPercentile (data : List ℚ) (p : ℚ) : ℚ :=
  let s := pySort data
  let n := s.length
  let k : ℚ := ((n : ℚ) - 1) * p / 100
  let f : ℕ := (⌊k⌋).toNat
  let c : ℕ := min (f + 1) (n - 1)
  s.getD f 0 + (s.getD c 0 - s.getD f 0) * (k - (f : ℚ))

/-! ## Thermal configuration and GPU monitoring (`inference-server/server.py`) -/

/-- `ThermalConfig` (server.py lines 325-336): thermal throttling thresholds
and configured actions, with the source's defaults. -/
structure ThermalConfig where
  warning_temp_celsius : ℚ := 75
  throttle_temp_celsius : ℚ := 83
  critical_temp_celsius : ℚ := 90
  polling_interval_seconds : ℚ := 5
  reduce_batch_on_throttle : Bool := true
  reduce_sessions_on_throttle : Bool := true
  reject_on_critical : Bool := true

/-- The module-level `thermal_config = ThermalConfig()` (server.py line 337). -/
def thermal_config : ThermalConfig := {}

/-- The coarse thermal classification used by the server. -/
inductive ThermalState
  | normal
  | warning
  | throttling
  | critical
deriving DecidableEq, Repr

/-- The per-GPU entry of `GPUMonitor.thermal_state` (server.py lines 392-397). -/
structure GpuThermalEntry where
  is_throttling : Bool
  is_critical : Bool
  is_warning : Bool
  last_temp : ℚ

/-- The thermal-state derivation inside `GPUMonitor.get_gpu_stats`
(server.py lines 386-397): the three boolean comparisons against the
configured thresholds, recorded per GPU. -/
def thermalEntryOf (cfg : ThermalConfig) (temp : ℚ) : GpuThermalEntry where
  is_throttling := decide (cfg.throttle_temp_celsius ≤ temp)
  is_critical := decide (cfg.critical_temp_celsius ≤ temp)
  is_warning := decide (cfg.warning_temp_celsius ≤ temp)
  last_temp := temp

/-- The `thermal_state` string selected in `GPUMonitor.get_gpu_stats`
(server.py line 409): `critical` takes priority over `throttling`, which takes
priority over `warning`, else `normal`. -/
def thermalStateOf (cfg : ThermalConfig) (temp : ℚ) : ThermalState :=
  let e := thermalEntryOf cfg temp
  if e.is_critical then .critical
  else if e.is_throttling then .throttling
  else if e.is_warning then .warning
  else .normal

/-- `GPUMonitor.is_any_gpu_critical` (server.py lines 430-432). -/
def is_any_gpu_critical (thermal_state : List GpuThermalEntry) : Bool :=
  thermal_state.any (·.is_critical)

/-! ## Session management (`inference-server/server.py` lines 468-541) -/

/-- `InferenceSession` (server.py lines 468-475). -/
structure InferenceSession where
  session_id : ℕ
  created_at : ℚ
  last_request : ℚ
  request_count : ℕ
  total_tokens : ℕ
  avg_latency_ms : ℚ
deriving DecidableEq, Repr

/-- The session record as initialised by `create_session`
(server.py lines 493-497). -/
def freshSession (sid : ℕ) (now : ℚ) : InferenceSession where
  session_id := sid
  created_at := now
  last_request := now
  request_count := 0
  total_tokens := 0
  avg_latency_ms := 0

/-- The state of a `SessionManager` (server.py lines 477-481): the configured
ceiling and the registry dictionary, modelled as an association list in
insertion order; `next_id` models `uuid.uuid4()` as a fresh-id counter. -/
structure SessionManagerState where
  max_sessions : ℕ
  sessions : List (ℕ × InferenceSession)
  next_id : ℕ
deriving DecidableEq, Repr

/-- `SessionManager(max_sessions)` with an empty registry. -/
def initManager (max_sessions : ℕ) : SessionManagerState where
  max_sessions := max_sessions
  sessions := []
  next_id := 0

/-- Reasons a session creation can be refused.  The server raises an
HTTP 503 `Max concurrent sessions reached` for capacity; `thermalCritical`
is the §4.3 spec reason, present for comparison. -/
inductive RejectReason
  | capacityExceeded
  | thermalCritical
deriving DecidableEq, Repr

/-- Outcome of `SessionManager.create_session`. -/
inductive CreateResult
  | admitted (sid : ℕ)
  | rejected (reason : RejectReason)
deriving DecidableEq, Repr

/-- `SessionManager.create_session` (server.py lines 483-499): reject with the
capacity error when `len(sessions) >= max_sessions`, otherwise insert a fresh
session under a fresh id.  The body consults only the registry size — no
thermal input exists in its scope. -/
def create_session (now : ℚ) (s : SessionManagerState) :
    CreateResult × SessionManagerState :=
  if s.max_sessions ≤ s.sessions.length then
    (.rejected .capacityExceeded, s)
  else
    let sid := s.next_id
    (.admitted sid,
      { s with
          sessions := s.sessions ++ [(sid, freshSession sid now)]
          next_id := sid + 1 })

/-- The per-session mutation performed by `SessionManager.update_session`
(server.py lines 509-517): bump the activity timestamp and counters, then
recompute the running mean as `(avg * (count - 1) + latency) / count` with the
already-incremented count. -/
def touchSession (sess : InferenceSession) (now : ℚ) (tokens : ℕ)
    (latency_ms : ℚ) : InferenceSession :=
  let request_count := sess.request_count + 1
  { sess with
      last_request := now
      request_count := request_count
      total_tokens := sess.total_tokens + tokens
      avg_latency_ms :=
        (sess.avg_latency_ms * ((request_count : ℚ) - 1) + latency_ms)
          / (request_count : ℚ) }

/-- `SessionManager.update_session` (server.py lines 506-517): mutate the
session only when the id is present; an unknown id leaves the registry
untouched and raises nothing. -/
def update_session (s : SessionManagerState) (sid : ℕ) (now : ℚ) (tokens : ℕ)
    (latency_ms : ℚ) : SessionManagerState :=
  match s.sessions.lookup sid with
  | none => s
  | some _ =>
      { s with
          sessions := s.sessions.map fun p =>
            if p.1 = sid then (p.1, touchSession p.2 now tokens latency_ms) else p }

/-- `SessionManager.close_session` (server.py lines 519-523): delete the entry
when present; releasing an unknown id is a no-op. -/
def close_session (s : SessionManagerState) (sid : ℕ) : SessionManagerState :=
  match s.sessions.lookup sid with
  | none => s
  | some _ => { s with sessions := s.sessions.filter fun p => p.1 != sid }

/-- A client-visible pool operation: a `POST /v1/sessions` or a
`DELETE /v1/sessions/{id}`. -/
inductive PoolOp
  | create (now : ℚ)
  | close (sid : ℕ)
deriving DecidableEq, Repr

/-- Apply one pool operation (the result of a create is dropped, only the
state transition is kept). -/
def applyOp (s : SessionManagerState) : PoolOp → SessionManagerState
  | .create now => (create_session now s).2
  | .close sid => close_session s sid

/-- Apply a sequence of pool operations in order. -/
def applyOps (s : SessionManagerState) (ops : List PoolOp) : SessionManagerState :=
  ops.foldl applyOp s

/-- `create_session` called `n` times back to back with no releases in
between, collecting every outcome. -/
def createN (now : ℚ) : ℕ → SessionManagerState → List CreateResult × SessionManagerState
  | 0, s => ([], s)
  | n + 1, s =>
      let r := create_session now s
      let rest := createN now n r.2
      (r.1 :: rest.1, rest.2)

/-- Number of successful admissions in a list of creation outcomes. -/
def countAdmitted (rs : List CreateResult) : ℕ :=
  (rs.filter fun r => match r with | .admitted _ => true | .rejected _ => false).length

/-- Number of capacity rejections in a list of creation outcomes. -/
def countCapacityRejected (rs : List CreateResult) : ℕ :=
  (rs.filter fun r =>
    match r with | .rejected .capacityExceeded => true | _ => false).length

/-- `update_session` applied repeatedly to one session record with a sequence
of latencies (fixed timestamp and token count, which do not feed the mean). -/
def foldTouch (sess : InferenceSession) (now : ℚ) (tokens : ℕ) (ls : List ℚ) :
    InferenceSession :=
  ls.foldl (fun acc l => touchSession acc now tokens l) sess

/-! ## Dual-SKU load test (`simulation/load-test-comparison.py`) -/

namespace LoadTestComparison

/-- Outcome of one `create_session` HTTP call as classified by
`create_session` in load-test-comparison.py (lines 35-46). -/
inductive CreateOutcome
  | ok (sid : ℕ)
  | rejected (reason : String)
deriving DecidableEq, Repr

/-- Outcome of one `send_inference` HTTP call (lines 48-69): a latency is
always measured; the success flag mirrors the HTTP status. -/
inductive SendOutcome
  | ok (latency_ms : ℚ)
  | failed (latency_ms : ℚ)
deriving DecidableEq, Repr

/-- The mutable counters of `run_load_test` phase 1 (lines 93-111). -/
structure Phase1Counts where
  sessions_created : ℕ
  sessions_rejected : ℕ
  session_ids : List ℕ
deriving DecidableEq, Repr

/-- Phase 1 of `run_load_test` (lines 101-110): one creation attempt per
target session; a success appends its id, a rejection only bumps the
rejection tally. -/
def phase1 (outcomes : List CreateOutcome) : Phase1Counts :=
  outcomes.foldl
    (fun acc o =>
      match o with
      | .ok sid =>
          { acc with
              sessions_created := acc.sessions_created + 1
              session_ids := acc.session_ids ++ [sid] }
      | .rejected _ =>
          { acc with sessions_rejected := acc.sessions_rejected + 1 })
    ⟨0, 0, []⟩

/-- Phase 2 of `run_load_test` (lines 114-122): `requests_per_session`
dispatches for each created session id, none for rejected attempts.  The
environment's reply to each dispatch is the function `f`. -/
def phase2 (session_ids : List ℕ) (requests_per_session : ℕ)
    (f : ℕ → ℕ → SendOutcome) : List SendOutcome :=
  session_ids.flatMap fun sid => (List.range requests_per_session).map (f sid)

/-- The latencies list built in lines 124-128: one entry per successful
dispatch. -/
def latenciesOf (rs : List SendOutcome) : List ℚ :=
  rs.filterMap fun r => match r with | .ok l => some l | .failed _ => none

/-- The `errors` counter of lines 124-128: one per failed dispatch. -/
def errorsOf (rs : List SendOutcome) : ℕ :=
  (rs.filter fun r => match r with | .ok _ => false | .failed _ => true).length

/-- `TestResult` (lines 24-33), numeric fields only. -/
structure TestResult where
  sessions_created : ℕ
  sessions_rejected : ℕ
  avg_latency_ms : ℚ
  p90_latency_ms : ℚ
  total_requests : ℕ
  errors : ℕ
deriving DecidableEq, Repr

/-- `run_load_test` (lines 79-143) with the HTTP environment abstracted into
the per-attempt admission outcomes and the per-dispatch reply function:
phase 1 admissions, phase 2 dispatches over the created ids only, then the
aggregate statistics exactly as computed in lines 130-143 (the `round(_, 2)`
decimal presentation step is omitted; every claim below concerns the counts,
which Python does not round). -/
def run_load_test (outcomes : List CreateOutcome) (requests_per_session : ℕ)
    (f : ℕ → ℕ → SendOutcome) : TestResult :=
  let c := phase1 outcomes
  let rs := phase2 c.session_ids requests_per_session f
  let latencies := latenciesOf rs
  let errors := errorsOf rs
  let avg_latency : ℚ := if latencies = [] then 0 else pyMean latencies
  { sessions_created := c.sessions_created
    sessions_rejected := c.sessions_rejected
    avg_latency_ms := avg_latency
    p90_latency_ms :=
      if 1 < latencies.length then
        pyGet (pySort latencies) (pyInt ((latencies.length : ℚ) * (9 / 10)))
      else avg_latency
    total_requests := latencies.length + errors
    errors := errors }

end LoadTestComparison

namespace InferenceBenchmark

/-- `user_session` inside `InferenceBenchmark.run_concurrent_test`
(benchmark_inference.py lines 142-171): the session-creation attempt yields a
`session_id` of `None` when admission fails, and the request loop then runs
`requests_per_user` times regardless, collecting one result per iteration
(the reply to each dispatch is the function `f`, which receives the optional
session id exactly as `single_request` does). -/
def user_session (admission : LoadTestComparison.CreateOutcome)
    (requests_per_user : ℕ)
    (f : Option ℕ → ℕ → LoadTestComparison.SendOutcome) :
    List LoadTestComparison.SendOutcome :=
  let session_id : Option ℕ :=
    match admission with
    | .ok sid => some sid
    | .rejected _ => none
  (List.range requests_per_user).map (f session_id)

end InferenceBenchmark

namespace BenchmarkLLM

/-- `RequestResult` (benchmark_llm.py lines 39-48), numeric fields only. -/
structure RequestResult where
  success : Bool
  ttft_ms : ℚ
  total_latency_ms : ℚ
  tokens_generated : ℕ
  tokens_per_second : ℚ
deriving DecidableEq, Repr

/-- `BenchmarkResult` (benchmark_llm.py lines 51-80). -/
structure BenchmarkResult where
  concurrency : ℕ
  total_requests : ℕ
  successful_requests : ℕ
  failed_requests : ℕ
  ttft_min : ℚ
  ttft_max : ℚ
  ttft_mean : ℚ
  ttft_p50 : ℚ
  ttft_p90 : ℚ
  ttft_p99 : ℚ
  latency_min : ℚ
  latency_max : ℚ
  latency_mean : ℚ
  latency_p50 : ℚ
  latency_p90 : ℚ
  latency_p99 : ℚ
  tokens_per_second_mean : ℚ
  total_throughput : ℚ
  test_duration_sec : ℚ
deriving DecidableEq, Repr

/-- `LLMBenchmark._calculate_metrics` (benchmark_llm.py lines 226-279): filter
the successful results; with none, emit the degenerate all-zero summary that
still carries the counts; otherwise aggregate min/max/mean and the
interpolated percentiles over the successful samples. -/
def calculate_metrics (results : List RequestResult) (concurrency : ℕ)
    (duration : ℚ) : BenchmarkResult :=
  let successful := results.filter (·.success)
  if successful = [] then
    { concurrency := concurrency
      total_requests := results.length
      successful_requests := 0
      failed_requests := results.length
      ttft_min := 0, ttft_max := 0, ttft_mean := 0
      ttft_p50 := 0, ttft_p90 := 0, ttft_p99 := 0
      latency_min := 0, latency_max := 0, latency_mean := 0
      latency_p50 := 0, latency_p90 := 0, latency_p99 := 0
      tokens_per_second_mean := 0
      total_throughput := 0
      test_duration_sec := duration }
  else
    let ttft_values := successful.map (·.ttft_ms)
    let latency_values := successful.map (·.total_latency_ms)
    let tps_values := successful.map (·.tokens_per_second)
    let total_tokens := (successful.map (·.tokens_generated)).sum
    { concurrency := concurrency
      total_requests := results.length
      successful_requests := successful.length
      failed_requests := results.length - successful.length
      ttft_min := pyMin ttft_values
      ttft_max := pyMax ttft_values
      ttft_mean := pyMean ttft_values
      ttft_p50 := percentile ttft_values 50
      ttft_p90 := percentile ttft_values 90
      ttft_p99 := percentile ttft_values 99
      latency_min := pyMin latency_values
      latency_max := pyMax latency_values
      latency_mean := pyMean latency_values
      latency_p50 := percentile latency_values 50
      latency_p90 := percentile latency_values 90
      latency_p99 := percentile latency_values 99
      tokens_per_second_mean := pyMean tps_values
      total_throughput := if 0 < duration then (total_tokens : ℚ) / duration else 0
      test_duration_sec := duration }

end BenchmarkLLM

/-- The interpolation computed by `BenchmarkLLM.percentile` at fractional
rank `k` over an already-sorted buffer. -/
def interpAt (s : List ℚ) (k : ℚ) : ℚ :=
  s.getD (⌊k⌋).toNat 0 +
    (s.getD (if (⌊k⌋).toNat + 1 < s.length then (⌊k⌋).toNat + 1 else (⌊k⌋).toNat) 0 -
        s.getD (⌊k⌋).toNat 0) *
      (k - (((⌊k⌋).toNat : ℕ) : ℚ))

namespace LoadTestComparison

/-- Whether a creation attempt succeeded. -/
def isOkOutcome : CreateOutcome → Bool
  | .ok _ => true
  | .rejected _ => false

/-- Number of successful admissions among the creation attempts. -/
def countOk (outcomes : List CreateOutcome) : ℕ :=
  (outcomes.filter isOkOutcome).length

/-- Number of rejected admissions among the creation attempts. -/
def countRejectedAttempts (outcomes : List CreateOutcome) : ℕ :=
  (outcomes.filter fun o => !isOkOutcome o).length

/-- The ids returned by the successful creation attempts, in order. -/
def createdIds (outcomes : List CreateOutcome) : List ℕ :=
  outcomes.filterMap fun o =>
    match o with
    | .ok sid => some sid
    | .rejected _ => none

end LoadTestComparison

/-! ## Basic facts about the helpers -/

theorem pySort_perm (l : List ℚ) : List.Perm (pySort l) l :=
  List.perm_insertionSort _ l

theorem pySort_sorted (l : List ℚ) : (pySort l).Sorted (· ≤ ·) :=
  List.sorted_insertionSort _ l

theorem pySort_length (l : List ℚ) : (pySort l).length = l.length :=
  List.length_insertionSort _ l

theorem foldl_min_le_init : ∀ (xs : List ℚ) (a : ℚ), xs.foldl min a ≤ a := by
  intro xs
  induction xs with
  | nil => intro a; exact le_refl a
  | cons x xs ih =>
      intro a
      exact le_trans (ih (min a x)) (min_le_left a x)

theorem foldl_min_le_mem :
    ∀ (xs : List ℚ) (a x : ℚ), x ∈ xs → xs.foldl min a ≤ x := by
  intro xs
  induction xs with
  | nil => intro a x hx; cases hx
  | cons y xs ih =>
      intro a x hx
      rcases List.mem_cons.mp hx with rfl | hx
      · exact le_trans (foldl_min_le_init xs (min a x)) (min_le_right a x)
      · exact ih (min a y) x hx

theorem foldl_min_mem :
    ∀ (xs : List ℚ) (a : ℚ), xs.foldl min a = a ∨ xs.foldl min a ∈ xs := by
  intro xs
  induction xs with
  | nil => intro a; exact Or.inl rfl
  | cons y xs ih =>
      intro a
      rcases ih (min a y) with h | h
      · rcases min_choice a y with hm | hm
        · exact Or.inl (by rw [List.foldl_cons, h, hm])
        · exact Or.inr (by rw [List.foldl_cons, h, hm]; exact List.mem_cons_self y xs)
      · exact Or.inr (List.mem_cons_of_mem y h)

theorem pyMin_mem (l : List ℚ) (h : l ≠ []) : pyMin l ∈ l := by
  cases l with
  | nil => exact absurd rfl h
  | cons x xs =>
      rcases foldl_min_mem xs x with h' | h'
      · simp only [pyMin]; rw [h']; exact List.mem_cons_self x xs
      · simp only [pyMin]; exact List.mem_cons_of_mem x h'

theorem pyMin_le (l : List ℚ) (x : ℚ) (hx : x ∈ l) : pyMin l ≤ x := by
  cases l with
  | nil => cases hx
  | cons y xs =>
      rcases List.mem_cons.mp hx with rfl | hx
      · exact foldl_min_le_init xs x
      · exact foldl_min_le_mem xs y x hx

theorem foldl_max_init_le : ∀ (xs : List ℚ) (a : ℚ), a ≤ xs.foldl max a := by
  intro xs
  induction xs with
  | nil => intro a; exact le_refl a
  | cons x xs ih =>
      intro a
      exact le_trans (le_max_left a x) (ih (max a x))

theorem foldl_max_mem_le :
    ∀ (xs : List ℚ) (a x : ℚ), x ∈ xs → x ≤ xs.foldl max a := by
  intro xs
  induction xs with
  | nil => intro a x hx; cases hx
  | cons y xs ih =>
      intro a x hx
      rcases List.mem_cons.mp hx with rfl | hx
      · exact le_trans (le_max_right a x) (foldl_max_init_le xs (max a x))
      · exact ih (max a y) x hx

theorem foldl_max_mem :
    ∀ (xs : List ℚ) (a : ℚ), xs.foldl max a = a ∨ xs.foldl max a ∈ xs := by
  intro xs
  induction xs with
  | nil => intro a; exact Or.inl rfl
  | cons y xs ih =>
      intro a
      rcases ih (max a y) with h | h
      · rcases max_choice a y with hm | hm
        · exact Or.inl (by rw [List.foldl_cons, h, hm])
        · exact Or.inr (by rw [List.foldl_cons, h, hm]; exact List.mem_cons_self y xs)
      · exact Or.inr (List.mem_cons_of_mem y h)

theorem pyMax_mem (l : List ℚ) (h : l ≠ []) : pyMax l ∈ l := by
  cases l with
  | nil => exact absurd rfl h
  | cons x xs =>
      rcases foldl_max_mem xs x with h' | h'
      · simp only [pyMax]; rw [h']; exact List.mem_cons_self x xs
      · simp only [pyMax]; exact List.mem_cons_of_mem x h'

theorem pyMax_ge (l : List ℚ) (x : ℚ) (hx : x ∈ l) : x ≤ pyMax l := by
  cases l with
  | nil => cases hx
  | cons y xs =>
      rcases List.mem_cons.mp hx with rfl | hx
      · exact foldl_max_init_le xs x
      · exact foldl_max_mem_le xs y x hx

theorem sorted_getD_mono {s : List ℚ} (hs : s.Sorted (· ≤ ·)) {i j : ℕ}
    (hij : i ≤ j) (hj : j < s.length) : s.getD i 0 ≤ s.getD j 0 := by
  have hi : i < s.length := lt_of_le_of_lt hij hj
  rw [List.getD_eq_get _ _ hi, List.getD_eq_get _ _ hj]
  exact hs.rel_get_of_le (by exact hij)

theorem pySort_ne_nil {l : List ℚ} (h : l ≠ []) : pySort l ≠ [] := by
  intro hnil
  exact h (List.eq_nil_of_length_eq_zero (by rw [← pySort_length l, hnil]; rfl))

theorem pySort_head_eq_pyMin (l : List ℚ) (h : l ≠ []) :
    (pySort l).getD 0 0 = pyMin l := by
  have hs := pySort_sorted l
  have hlen : 0 < (pySort l).length := by
    rw [pySort_length]
    exact List.length_pos.mpr h
  apply le_antisymm
  · obtain ⟨j, hj⟩ := List.mem_iff_get.mp ((pySort_perm l).mem_iff.mpr (pyMin_mem l h))
    calc (pySort l).getD 0 0 ≤ (pySort l).getD j 0 :=
          sorted_getD_mono hs (Nat.zero_le _) j.isLt
      _ = pyMin l := by rw [List.getD_eq_get _ _ j.isLt]; exact hj
  · exact pyMin_le l _ ((pySort_perm l).mem_iff.mp
      (by rw [List.getD_eq_get _ _ hlen]; exact List.get_mem _ _ _))

theorem pySort_last_eq_pyMax (l : List ℚ) (h : l ≠ []) :
    (pySort l).getD ((pySort l).length - 1) 0 = pyMax l := by
  have hs := pySort_sorted l
  have hlen : 0 < (pySort l).length := by
    rw [pySort_length]
    exact List.length_pos.mpr h
  have hlast : (pySort l).length - 1 < (pySort l).length := by omega
  apply le_antisymm
  · exact pyMax_ge l _ ((pySort_perm l).mem_iff.mp
      (by rw [List.getD_eq_get _ _ hlast]; exact List.get_mem _ _ _))
  · obtain ⟨j, hj⟩ := List.mem_iff_get.mp ((pySort_perm l).mem_iff.mpr (pyMax_mem l h))
    calc pyMax l = (pySort l).getD j 0 := by
          rw [List.getD_eq_get _ _ j.isLt]; exact hj.symm
      _ ≤ (pySort l).getD ((pySort l).length - 1) 0 :=
          sorted_getD_mono hs (by omega) hlast

/-! ## C6: thermal classification -/

/-- C6: for ascending thresholds `warning < throttle < critical`, the thermal
state derived by `GPUMonitor.get_gpu_stats` is the pure four-way case analysis
on the temperature (`≥ critical → Critical`, else `≥ throttle → Throttling`,
else `≥ warning → Warning`, else `Normal`), and a temperature exactly at a
threshold resolves to the higher-severity state. -/
theorem thermal_classification_correct (cfg : ThermalConfig) (t : ℚ)
    (h₁ : cfg.warning_temp_celsius < cfg.throttle_temp_celsius)
    (h₂ : cfg.throttle_temp_celsius < cfg.critical_temp_celsius) :
    (cfg.critical_temp_celsius ≤ t → thermalStateOf cfg t = .critical) ∧
    (t < cfg.critical_temp_celsius → cfg.throttle_temp_celsius ≤ t →
      thermalStateOf cfg t = .throttling) ∧
    (t < cfg.throttle_temp_celsius → cfg.warning_temp_celsius ≤ t →
      thermalStateOf cfg t = .warning) ∧
    (t < cfg.warning_temp_celsius → thermalStateOf cfg t = .normal) ∧
    thermalStateOf cfg cfg.throttle_temp_celsius = .throttling ∧
    thermalStateOf cfg cfg.warning_temp_celsius = .warning ∧
    thermalStateOf cfg cfg.critical_temp_celsius = .critical := by
  simp only [thermalStateOf, thermalEntryOf, decide_eq_true_eq]
  refine ⟨fun hc => ?_, fun hc ht => ?_, fun ht hw => ?_, fun hw => ?_, ?_, ?_, ?_⟩ <;>
    split_ifs <;> first | rfl | linarith

/-- Witness for C6 at the source defaults 75/83/90. -/
theorem thermal_classification_correct_witness :
    thermalStateOf thermal_config 83 = .throttling ∧
    thermalStateOf thermal_config 74 = .normal := by
  have h := thermal_classification_correct thermal_config 83
    (by norm_num [thermal_config]) (by norm_num [thermal_config])
  have h' := thermal_classification_correct thermal_config 74
    (by norm_num [thermal_config]) (by norm_num [thermal_config])
  refine ⟨?_, ?_⟩
  · have := h.2.1
    simp only [thermal_config] at this ⊢
    exact this (by norm_num) (by norm_num)
  · have := h'.2.2.2.1
    simp only [thermal_config] at this ⊢
    exact this (by norm_num)

/-! ## C10: update_session on an unknown id is a no-op -/

/-- C10: `update_session` called with an id absent from the registry returns
without error and leaves the state completely unchanged. -/
theorem update_session_unknown_id_noop (s : SessionManagerState) (sid : ℕ)
    (now : ℚ) (tokens : ℕ) (latency_ms : ℚ)
    (h : s.sessions.lookup sid = none) :
    update_session s sid now tokens latency_ms = s := by
  unfold update_session
  rw [h]

/-- Witness for C10 on an empty registry. -/
theorem update_session_unknown_id_noop_witness :
    update_session (initManager 5) 3 0 0 0 = initManager 5 :=
  update_session_unknown_id_noop (initManager 5) 3 0 0 0 rfl

/-! ## C1: admission never consults the thermal state -/

/-- C1 (evaluation at the failing input): with the default thermal
configuration — `reject_on_critical` is `true` — and the GPU monitor
reporting a critical thermal state (temperature 95 against the 90 threshold),
`create_session` on an empty pool of capacity 10 still admits a new session;
no `ThermalCritical` rejection exists in its code path. -/
theorem create_session_ignores_critical_thermal :
    thermal_config.reject_on_critical = true ∧
    is_any_gpu_critical [thermalEntryOf thermal_config 95] = true ∧
    (create_session 0 (initManager 10)).1 = .admitted 0 ∧
    (create_session 0 (initManager 10)).1 ≠ .rejected .thermalCritical := by
  refine ⟨rfl, ?_, ?_, ?_⟩
  · norm_num [is_any_gpu_critical, thermalEntryOf, thermal_config]
  · norm_num [create_session, initManager]
  · norm_num [create_session, initManager]
    intro hcontra
    cases hcontra

/-! ## C3: capacity+1 creations yield capacity admissions and one rejection -/

theorem countAdmitted_cons_admitted (sid : ℕ) (rs : List CreateResult) :
    countAdmitted (.admitted sid :: rs) = countAdmitted rs + 1 := by
  simp [countAdmitted]

theorem countAdmitted_cons_rejected (r : RejectReason) (rs : List CreateResult) :
    countAdmitted (.rejected r :: rs) = countAdmitted rs := by
  simp [countAdmitted]

theorem countCapacityRejected_cons_admitted (sid : ℕ) (rs : List CreateResult) :
    countCapacityRejected (.admitted sid :: rs) = countCapacityRejected rs := by
  simp [countCapacityRejected]

theorem countCapacityRejected_cons_capacity (rs : List CreateResult) :
    countCapacityRejected (.rejected .capacityExceeded :: rs) =
      countCapacityRejected rs + 1 := by
  simp [countCapacityRejected]

theorem createN_length (now : ℚ) :
    ∀ (n : ℕ) (s : SessionManagerState), (createN now n s).1.length = n := by
  intro n
  induction n with
  | zero => intro s; rfl
  | succ n ih => intro s; simp [createN, ih]

theorem createN_counts (now : ℚ) :
    ∀ (n : ℕ) (s : SessionManagerState),
      s.sessions.length ≤ s.max_sessions →
      countAdmitted (createN now n s).1 =
          min n (s.max_sessions - s.sessions.length) ∧
      countCapacityRejected (createN now n s).1 =
          n - min n (s.max_sessions - s.sessions.length) := by
  intro n
  induction n with
  | zero =>
      intro s _
      simp [createN, countAdmitted, countCapacityRejected]
  | succ n ih =>
      intro s hs
      by_cases hcap : s.max_sessions ≤ s.sessions.length
      · have hlen : s.sessions.length = s.max_sessions := le_antisymm hs hcap
        have hstep : create_session now s = (.rejected .capacityExceeded, s) := by
          unfold create_session
          rw [if_pos hcap]
        have h := ih s hs
        simp only [createN, hstep]
        rw [countAdmitted_cons_rejected, countCapacityRejected_cons_capacity,
          h.1, h.2, hlen]
        omega
      · push_neg at hcap
        have hstep :
            create_session now s =
              (.admitted s.next_id,
                { s with
                    sessions := s.sessions ++ [(s.next_id, freshSession s.next_id now)]
                    next_id := s.next_id + 1 }) := by
          unfold create_session
          rw [if_neg (not_le.mpr hcap)]
        set s' : SessionManagerState :=
          { s with
              sessions := s.sessions ++ [(s.next_id, freshSession s.next_id now)]
              next_id := s.next_id + 1 } with hs'
        have hlen' : s'.sessions.length = s.sessions.length + 1 := by
          simp [hs']
        have hmax' : s'.max_sessions = s.max_sessions := rfl
        have h := ih s' (by rw [hlen', hmax']; omega)
        simp only [createN, hstep]
        rw [countAdmitted_cons_admitted, countCapacityRejected_cons_admitted,
          h.1, h.2, hlen', hmax']
        omega

/-- C3: from an empty pool of capacity `capacity`, calling `create_session`
exactly `capacity + 1` times with no releases in between yields exactly
`capacity` successful admissions and exactly one rejection, whose reason is
the capacity error. -/
theorem create_capacity_plus_one (capacity : ℕ) (now : ℚ) :
    countAdmitted (createN now (capacity + 1) (initManager capacity)).1 = capacity ∧
    countCapacityRejected (createN now (capacity + 1) (initManager capacity)).1 = 1 ∧
    (createN now (capacity + 1) (initManager capacity)).1.length = capacity + 1 := by
  have h := createN_counts now (capacity + 1) (initManager capacity)
    (by simp [initManager])
  have hmin : min (capacity + 1) ((initManager capacity).max_sessions -
      (initManager capacity).sessions.length) = capacity := by
    simp [initManager]
  refine ⟨?_, ?_, createN_length now (capacity + 1) (initManager capacity)⟩
  · rw [h.1, hmin]
  · rw [h.2, hmin]
    omega

/-! ## C4: the pool never exceeds its capacity -/

theorem applyOp_preserves_bound {s : SessionManagerState}
    (h : s.sessions.length ≤ s.max_sessions) (op : PoolOp) :
    (applyOp s op).sessions.length ≤ (applyOp s op).max_sessions ∧
    (applyOp s op).max_sessions = s.max_sessions := by
  cases op with
  | create now =>
      by_cases hcap : s.max_sessions ≤ s.sessions.length
      · have hstep : create_session now s = (.rejected .capacityExceeded, s) := by
          unfold create_session
          rw [if_pos hcap]
        simp [applyOp, hstep, h]
      · push_neg at hcap
        have hstep :
            create_session now s =
              (.admitted s.next_id,
                { s with
                    sessions := s.sessions ++ [(s.next_id, freshSession s.next_id now)]
                    next_id := s.next_id + 1 }) := by
          unfold create_session
          rw [if_neg (not_le.mpr hcap)]
        refine ⟨?_, ?_⟩
        · simp only [applyOp, hstep]
          simp only [List.length_append, List.length_singleton]
          omega
        · simp [applyOp, hstep]
  | close sid =>
      cases hl : s.sessions.lookup sid with
      | none => simp [applyOp, close_session, hl, h]
      | some sess =>
          refine ⟨?_, ?_⟩
          · simp only [applyOp, close_session, hl]
            exact le_trans (List.length_filter_le _ _) h
          · simp [applyOp, close_session, hl]

theorem applyOps_preserves_bound :
    ∀ (ops : List PoolOp) (s : SessionManagerState),
      s.sessions.length ≤ s.max_sessions →
      (applyOps s ops).sessions.length ≤ (applyOps s ops).max_sessions ∧
      (applyOps s ops).max_sessions = s.max_sessions := by
  intro ops
  induction ops with
  | nil => intro s h; exact ⟨h, rfl⟩
  | cons op ops ih =>
      intro s h
      have hop := applyOp_preserves_bound h op
      have h' := ih (applyOp s op) hop.1
      exact ⟨h'.1, h'.2.trans hop.2⟩

/-- C4: starting from an empty pool of capacity `capacity`, after any prefix
of any sequence of create and release operations the number of registered
sessions never exceeds `capacity`. -/
theorem pool_never_exceeds_capacity (capacity : ℕ) (ops : List PoolOp) (k : ℕ) :
    (applyOps (initManager capacity) (ops.take k)).sessions.length ≤ capacity := by
  have h := applyOps_preserves_bound (ops.take k) (initManager capacity)
    (by simp [initManager])
  calc (applyOps (initManager capacity) (ops.take k)).sessions.length
      ≤ (applyOps (initManager capacity) (ops.take k)).max_sessions := h.1
    _ = capacity := h.2

/-! ## C5: the running mean matches the batch mean -/

theorem foldTouch_request_count (now : ℚ) (tokens : ℕ) :
    ∀ (ls : List ℚ) (sess : InferenceSession),
      (foldTouch sess now tokens ls).request_count =
        sess.request_count + ls.length := by
  intro ls
  induction ls with
  | nil => intro sess; rfl
  | cons l ls ih =>
      intro sess
      simp only [foldTouch, List.foldl_cons] at ih ⊢
      rw [ih (touchSession sess now tokens l)]
      simp [touchSession]
      omega

theorem foldTouch_avg_mul (now : ℚ) (tokens : ℕ) :
    ∀ (ls : List ℚ) (sess : InferenceSession),
      (foldTouch sess now tokens ls).avg_latency_ms *
          ((sess.request_count : ℚ) + (ls.length : ℚ)) =
        sess.avg_latency_ms * (sess.request_count : ℚ) + ls.sum := by
  intro ls
  induction ls with
  | nil =>
      intro sess
      simp [foldTouch]
  | cons l ls ih =>
      intro sess
      have hne : ((sess.request_count : ℚ) + 1) ≠ 0 := by positivity
      have hc : ((touchSession sess now tokens l).request_count : ℚ) =
          (sess.request_count : ℚ) + 1 := by
        simp [touchSession]
      have ha : (touchSession sess now tokens l).avg_latency_ms =
          (sess.avg_latency_ms * (sess.request_count : ℚ) + l) /
            ((sess.request_count : ℚ) + 1) := by
        simp only [touchSession]
        push_cast
        ring_nf
      have h := ih (touchSession sess now tokens l)
      rw [hc, ha, div_mul_cancel₀ _ hne] at h
      have hfold : foldTouch sess now tokens (l :: ls) =
          foldTouch (touchSession sess now tokens l) now tokens ls := rfl
      rw [hfold, List.length_cons, List.sum_cons]
      push_cast
      have hcount : (sess.request_count : ℚ) + ((ls.length : ℚ) + 1) =
          ((sess.request_count : ℚ) + 1) + (ls.length : ℚ) := by ring
      rw [hcount, h]
      ring

/-- C5: each `update_session` step recomputes the running mean as
`new_mean = old_mean + (latency - old_mean) / count` with the incremented
count, and folding the step over latencies `l1..ln` from a freshly created
session leaves `avg_latency_ms` equal to the arithmetic mean
`(l1 + ... + ln) / n`. -/
theorem touch_incremental_mean_matches_batch_mean :
    (∀ (sess : InferenceSession) (now : ℚ) (tokens : ℕ) (l : ℚ),
      (touchSession sess now tokens l).request_count = sess.request_count + 1 ∧
      (touchSession sess now tokens l).avg_latency_ms =
        sess.avg_latency_ms +
          (l - sess.avg_latency_ms) /
            (((touchSession sess now tokens l).request_count : ℚ))) ∧
    (∀ (sid : ℕ) (t0 now : ℚ) (tokens : ℕ) (ls : List ℚ), ls ≠ [] →
      (foldTouch (freshSession sid t0) now tokens ls).avg_latency_ms =
        ls.sum / (ls.length : ℚ)) := by
  constructor
  · intro sess now tokens l
    have hne : ((sess.request_count : ℚ) + 1) ≠ 0 := by positivity
    refine ⟨rfl, ?_⟩
    simp only [touchSession]
    push_cast
    field_simp
    ring
  · intro sid t0 now tokens ls hls
    have hlen : (0 : ℚ) < (ls.length : ℚ) := by
      have : 0 < ls.length := List.length_pos.mpr hls
      exact_mod_cast this
    have h := foldTouch_avg_mul now tokens ls (freshSession sid t0)
    simp only [freshSession, Nat.cast_zero, zero_add, zero_mul] at h
    rw [eq_div_iff (ne_of_gt hlen)]
    exact h

/-- Witness for C5: two touches with latencies 5 and 7 leave a mean of 6. -/
theorem touch_incremental_mean_witness :
    (foldTouch (freshSession 0 0) 1 4 [5, 7]).avg_latency_ms = 6 := by
  have h := touch_incremental_mean_matches_batch_mean.2 0 0 1 4 [5, 7]
    (by simp)
  rw [h]
  norm_num

/-! ## Interpolated percentile machinery (C2, C8) -/

theorem floorNat_cast_le {k : ℚ} (hk : 0 ≤ k) : (((⌊k⌋).toNat : ℕ) : ℚ) ≤ k := by
  have h : (((⌊k⌋).toNat : ℤ) : ℚ) = ((⌊k⌋ : ℤ) : ℚ) := by
    exact_mod_cast congrArg (fun z : ℤ => (z : ℚ))
      (Int.toNat_of_nonneg (Int.floor_nonneg.mpr hk))
  calc (((⌊k⌋).toNat : ℕ) : ℚ) = (((⌊k⌋).toNat : ℤ) : ℚ) := by push_cast; ring
    _ = ((⌊k⌋ : ℤ) : ℚ) := h
    _ ≤ k := Int.floor_le k

theorem lt_floorNat_cast_add_one {k : ℚ} (hk : 0 ≤ k) :
    k < (((⌊k⌋).toNat : ℕ) : ℚ) + 1 := by
  have h : (((⌊k⌋).toNat : ℤ) : ℚ) = ((⌊k⌋ : ℤ) : ℚ) := by
    exact_mod_cast congrArg (fun z : ℤ => (z : ℚ))
      (Int.toNat_of_nonneg (Int.floor_nonneg.mpr hk))
  calc k < ((⌊k⌋ : ℤ) : ℚ) + 1 := Int.lt_floor_add_one k
    _ = (((⌊k⌋).toNat : ℤ) : ℚ) + 1 := by rw [h]
    _ = (((⌊k⌋).toNat : ℕ) : ℚ) + 1 := by push_cast; ring

theorem floorNat_le_of_le {k : ℚ} {n : ℕ} (_hk : 0 ≤ k) (hn : 1 ≤ n)
    (h : k ≤ (n : ℚ) - 1) : (⌊k⌋).toNat ≤ n - 1 := by
  have h1 : ⌊k⌋ ≤ (n : ℤ) - 1 := by
    have : ((n : ℤ) - 1 : ℤ) = ⌊(((n : ℤ) - 1 : ℤ) : ℚ)⌋ := (Int.floor_intCast _).symm
    rw [this]
    apply Int.floor_mono
    push_cast
    linarith
  omega

theorem floorNat_mono {k₁ k₂ : ℚ} (h : k₁ ≤ k₂) : (⌊k₁⌋).toNat ≤ (⌊k₂⌋).toNat :=
  Int.toNat_le_toNat (Int.floor_mono h)

/-- `interpAt` at rank 0 is the first element. -/
theorem interpAt_zero (s : List ℚ) : interpAt s 0 = s.getD 0 0 := by
  unfold interpAt
  norm_num

/-- `interpAt` at rank `n - 1` is the last element. -/
theorem interpAt_last (s : List ℚ) (h : s ≠ []) :
    interpAt s ((s.length : ℚ) - 1) = s.getD (s.length - 1) 0 := by
  have hn : 1 ≤ s.length := List.length_pos.mpr h
  have hfl : ⌊(s.length : ℚ) - 1⌋ = (s.length : ℤ) - 1 := by
    have : ((s.length : ℚ) - 1) = (((s.length : ℤ) - 1 : ℤ) : ℚ) := by push_cast; ring
    rw [this, Int.floor_intCast]
  unfold interpAt
  rw [hfl]
  have htn : ((s.length : ℤ) - 1).toNat = s.length - 1 := by omega
  rw [htn]
  have hcond : ¬(s.length - 1 + 1 < s.length) := by omega
  rw [if_neg hcond]
  have hcast : ((s.length - 1 : ℕ) : ℚ) = (s.length : ℚ) - 1 := by
    have := hn
    push_cast [this]
    ring
  rw [hcast]
  ring

/-- Monotonicity of the interpolation in the fractional rank, over a sorted
buffer. -/
theorem interpAt_mono {s : List ℚ} (hs : s.Sorted (· ≤ ·)) {k₁ k₂ : ℚ}
    (h0 : 0 ≤ k₁) (h12 : k₁ ≤ k₂) (h2 : k₂ ≤ (s.length : ℚ) - 1) :
    interpAt s k₁ ≤ interpAt s k₂ := by
  have h0' : (0 : ℚ) ≤ k₂ := le_trans h0 h12
  have hn : 1 ≤ s.length := by
    rcases Nat.eq_zero_or_pos s.length with hz | hp
    · exfalso
      rw [hz] at h2
      push_cast at h2
      linarith
    · exact hp
  set f₁ : ℕ := (⌊k₁⌋).toNat with hf₁
  set f₂ : ℕ := (⌊k₂⌋).toNat with hf₂
  have hff : f₁ ≤ f₂ := floorNat_mono h12
  have hf₂n : f₂ ≤ s.length - 1 := floorNat_le_of_le h0' hn h2
  have hf₂lt : f₂ < s.length := by omega
  have hf₁lt : f₁ < s.length := by omega
  set c₁ : ℕ := if f₁ + 1 < s.length then f₁ + 1 else f₁ with hc₁
  set c₂ : ℕ := if f₂ + 1 < s.length then f₂ + 1 else f₂ with hc₂
  have hc₁lt : c₁ < s.length := by
    rw [hc₁]; split_ifs <;> omega
  have hc₂lt : c₂ < s.length := by
    rw [hc₂]; split_ifs <;> omega
  have hfc₁ : f₁ ≤ c₁ := by rw [hc₁]; split_ifs <;> omega
  have hfc₂ : f₂ ≤ c₂ := by rw [hc₂]; split_ifs <;> omega
  have hA₁B₁ : s.getD f₁ 0 ≤ s.getD c₁ 0 := sorted_getD_mono hs hfc₁ hc₁lt
  have hA₂B₂ : s.getD f₂ 0 ≤ s.getD c₂ 0 := sorted_getD_mono hs hfc₂ hc₂lt
  have ht₁0 : 0 ≤ k₁ - (f₁ : ℚ) := by
    have := floorNat_cast_le h0
    rw [← hf₁] at this
    linarith
  have ht₂0 : 0 ≤ k₂ - (f₂ : ℚ) := by
    have := floorNat_cast_le h0'
    rw [← hf₂] at this
    linarith
  have ht₁1 : k₁ - (f₁ : ℚ) ≤ 1 := by
    have := lt_floorNat_cast_add_one h0
    rw [← hf₁] at this
    linarith
  rcases eq_or_lt_of_le hff with heq | hlt
  · -- same lower bracket: the shared linear piece is nondecreasing
    have hceq : c₁ = c₂ := by rw [hc₁, hc₂, heq]
    unfold interpAt
    rw [← hf₁, ← hf₂, ← hc₁, ← hc₂, heq, hceq]
    have hslope : 0 ≤ s.getD c₂ 0 - s.getD f₂ 0 := by linarith
    nlinarith [mul_le_mul_of_nonneg_left h12 hslope]
  · -- the first bracket ends at or before the second begins
    have hc₁f₂ : c₁ ≤ f₂ := by
      rw [hc₁]; split_ifs <;> omega
    have hB₁A₂ : s.getD c₁ 0 ≤ s.getD f₂ 0 := sorted_getD_mono hs hc₁f₂ hf₂lt
    have hv₁ : interpAt s k₁ ≤ s.getD c₁ 0 := by
      unfold interpAt
      rw [← hf₁, ← hc₁]
      nlinarith [mul_le_mul_of_nonneg_left ht₁1 (by linarith : (0:ℚ) ≤ s.getD c₁ 0 - s.getD f₁ 0)]
    have hv₂ : s.getD f₂ 0 ≤ interpAt s k₂ := by
      unfold interpAt
      rw [← hf₂, ← hc₂]
      nlinarith [mul_nonneg (by linarith : (0:ℚ) ≤ s.getD c₂ 0 - s.getD f₂ 0) ht₂0]
    linarith


theorem benchmarkLLM_percentile_eq_interpAt (data : List ℚ) (p : ℚ)
    (hd : data ≠ []) (h0 : 0 ≤ p) :
    BenchmarkLLM.percentile data p =
      interpAt (pySort data) ((((pySort data).length : ℚ) - 1) * (p / 100)) := by
  have hn : 1 ≤ (pySort data).length := by
    rw [pySort_length]
    exact List.length_pos.mpr hd
  set s := pySort data with hsdef
  set k : ℚ := (((s.length : ℚ)) - 1) * (p / 100) with hk
  have hk0 : 0 ≤ k := by
    apply mul_nonneg
    · have h1 : (1 : ℚ) ≤ (s.length : ℚ) := by exact_mod_cast hn
      linarith
    · positivity
  have hfl0 : 0 ≤ ⌊k⌋ := Int.floor_nonneg.mpr hk0
  have hpyint : pyInt k = ⌊k⌋ := by rw [pyInt, if_pos hk0]
  have hgf : pyGet s ⌊k⌋ = s.getD (⌊k⌋).toNat 0 := by
    rw [pyGet, if_pos hfl0]
  have hgc :
      pyGet s (if ⌊k⌋ + 1 < (s.length : ℤ) then ⌊k⌋ + 1 else ⌊k⌋) =
        s.getD
          (if (⌊k⌋).toNat + 1 < s.length then (⌊k⌋).toNat + 1 else (⌊k⌋).toNat) 0 := by
    by_cases hc : ⌊k⌋ + 1 < (s.length : ℤ)
    · rw [if_pos hc, if_pos (by omega), pyGet, if_pos (by omega)]
      congr 1
      omega
    · rw [if_neg hc, if_neg (by omega), pyGet, if_pos hfl0]
  have hcast : ((⌊k⌋ : ℤ) : ℚ) = (((⌊k⌋).toNat : ℕ) : ℚ) := by
    have := Int.toNat_of_nonneg hfl0
    exact_mod_cast this.symm
  simp only [BenchmarkLLM.percentile, if_neg hd]
  rw [← hsdef, ← hk, hpyint, hgf, hgc, hcast]
  rfl

theorem spec_percentile_eq_interpAt (data : List ℚ) (p : ℚ)
    (hd : data ≠ []) (h0 : 0 ≤ p) (h100 : p ≤ 100) :
    specLinearInterpPercentile data p =
      interpAt (pySort data) ((((pySort data).length : ℚ) - 1) * (p / 100)) := by
  have hn : 1 ≤ (pySort data).length := by
    rw [pySort_length]
    exact List.length_pos.mpr hd
  set s := pySort data with hsdef
  set k : ℚ := (((s.length : ℚ)) - 1) * (p / 100) with hk
  have hk0 : 0 ≤ k := by
    apply mul_nonneg
    · have h1 : (1 : ℚ) ≤ (s.length : ℚ) := by exact_mod_cast hn
      linarith
    · positivity
  have hkk : ((s.length : ℚ) - 1) * p / 100 = k := by
    rw [hk]; ring
  have hkle : k ≤ (s.length : ℚ) - 1 := by
    have h1 : (1 : ℚ) ≤ (s.length : ℚ) := by exact_mod_cast hn
    have hple : p / 100 ≤ 1 := by linarith
    calc k ≤ ((s.length : ℚ) - 1) * 1 :=
          mul_le_mul_of_nonneg_left hple (by linarith)
      _ = (s.length : ℚ) - 1 := mul_one _
  have hfle : (⌊k⌋).toNat ≤ s.length - 1 :=
    floorNat_le_of_le hk0 hn hkle
  have hmin :
      min ((⌊k⌋).toNat + 1) (s.length - 1) =
        if (⌊k⌋).toNat + 1 < s.length then (⌊k⌋).toNat + 1 else (⌊k⌋).toNat := by
    by_cases hc : (⌊k⌋).toNat + 1 < s.length
    · rw [if_pos hc]
      omega
    · rw [if_neg hc]
      omega
  simp only [specLinearInterpPercentile]
  rw [← hsdef, hkk, hmin]
  rfl

/-- C2 (amended, part proved): the `benchmark_llm.py` percentile equals the
spec's linearly interpolated order statistic for every non-empty buffer and
every `p ∈ [0, 100]`.  (`InferenceBenchmark.percentile` does not — see the
counterexample.) -/
theorem percentile_matches_linear_interpolation (data : List ℚ) (p : ℚ)
    (hd : data ≠ []) (h0 : 0 ≤ p) (h100 : p ≤ 100) :
    BenchmarkLLM.percentile data p = specLinearInterpPercentile data p := by
  rw [benchmarkLLM_percentile_eq_interpAt data p hd h0,
    spec_percentile_eq_interpAt data p hd h0 h100]

/-- Witness for the amended C2, on the buffer `[0, 10]` at `p = 50`. -/
theorem percentile_matches_linear_interpolation_witness :
    BenchmarkLLM.percentile [0, 10] 50 = specLinearInterpPercentile [0, 10] 50 :=
  percentile_matches_linear_interpolation [0, 10] 50 (by simp) (by norm_num)
    (by norm_num)

/-- C2 counterexample: `InferenceBenchmark.percentile` on the buffer
`[0, 10]` at `p = 50` returns the order statistic `10`, while the linearly
interpolated order statistic of the claim is `5`; the claim is false for
that cited implementation. -/
theorem ib_percentile_interpolation_counterexample :
    InferenceBenchmark.percentile [0, 10] 50 = 10 ∧
    specLinearInterpPercentile [0, 10] 50 = 5 ∧
    InferenceBenchmark.percentile [0, 10] 50 ≠
      specLinearInterpPercentile [0, 10] 50 := by
  refine ⟨?_, ?_, ?_⟩ <;>
    norm_num [InferenceBenchmark.percentile, specLinearInterpPercentile, pySort,
      pyInt, pyGet, List.insertionSort, List.orderedInsert, List.cons_ne_nil]

theorem ib_percentile_eq_getD (data : List ℚ) (p : ℚ)
    (hd : data ≠ []) (h0 : 0 ≤ p) :
    InferenceBenchmark.percentile data p =
      (pySort data).getD
        ((min (⌊((pySort data).length : ℚ) * p / 100⌋)
          (((pySort data).length : ℤ) - 1)).toNat) 0 := by
  have hn : 1 ≤ (pySort data).length := by
    rw [pySort_length]
    exact List.length_pos.mpr hd
  set s := pySort data with hsdef
  have harg : (0 : ℚ) ≤ (s.length : ℚ) * p / 100 := by positivity
  have hfl0 : 0 ≤ ⌊(s.length : ℚ) * p / 100⌋ := Int.floor_nonneg.mpr harg
  have hmin0 : 0 ≤ min (⌊(s.length : ℚ) * p / 100⌋) ((s.length : ℤ) - 1) := by
    apply le_min hfl0
    omega
  simp only [InferenceBenchmark.percentile, if_neg hd]
  rw [← hsdef, pyInt, if_pos harg, pyGet, if_pos hmin0]

/-- C8: for every non-empty buffer, both percentile implementations return
the buffer minimum at `p = 0` and the buffer maximum at `p = 100` (exactly,
over ℚ), and both are monotonically non-decreasing in `p` on `[0, 100]`. -/
theorem percentile_min_max_monotone (data : List ℚ) (p q : ℚ)
    (hd : data ≠ []) (h0 : 0 ≤ p) (hpq : p ≤ q) (h100 : q ≤ 100) :
    BenchmarkLLM.percentile data 0 = pyMin data ∧
    BenchmarkLLM.percentile data 100 = pyMax data ∧
    BenchmarkLLM.percentile data p ≤ BenchmarkLLM.percentile data q ∧
    InferenceBenchmark.percentile data 0 = pyMin data ∧
    InferenceBenchmark.percentile data 100 = pyMax data ∧
    InferenceBenchmark.percentile data p ≤ InferenceBenchmark.percentile data q := by
  have hn : 1 ≤ (pySort data).length := by
    rw [pySort_length]
    exact List.length_pos.mpr hd
  have hn1 : (1 : ℚ) ≤ ((pySort data).length : ℚ) := by exact_mod_cast hn
  have hs := pySort_sorted data
  refine ⟨?_, ?_, ?_, ?_, ?_, ?_⟩
  · rw [benchmarkLLM_percentile_eq_interpAt data 0 hd le_rfl]
    have hkz : (((pySort data).length : ℚ) - 1) * ((0 : ℚ) / 100) = 0 := by ring
    rw [hkz, interpAt_zero, pySort_head_eq_pyMin data hd]
  · rw [benchmarkLLM_percentile_eq_interpAt data 100 hd (by norm_num)]
    have hkl : (((pySort data).length : ℚ) - 1) * ((100 : ℚ) / 100) =
        ((pySort data).length : ℚ) - 1 := by ring
    rw [hkl, interpAt_last (pySort data) (pySort_ne_nil hd),
      pySort_last_eq_pyMax data hd]
  · rw [benchmarkLLM_percentile_eq_interpAt data p hd h0,
      benchmarkLLM_percentile_eq_interpAt data q hd (le_trans h0 hpq)]
    apply interpAt_mono hs
    · apply mul_nonneg (by linarith) (by positivity)
    · apply mul_le_mul_of_nonneg_left _ (by linarith)
      linarith
    · have hq1 : q / 100 ≤ 1 := by linarith
      calc (((pySort data).length : ℚ) - 1) * (q / 100)
          ≤ (((pySort data).length : ℚ) - 1) * 1 :=
            mul_le_mul_of_nonneg_left hq1 (by linarith)
        _ = ((pySort data).length : ℚ) - 1 := mul_one _
  · rw [ib_percentile_eq_getD data 0 hd le_rfl]
    have hz : ((pySort data).length : ℚ) * (0 : ℚ) / 100 = 0 := by ring
    rw [hz, Int.floor_zero]
    have hmin : min (0 : ℤ) (((pySort data).length : ℤ) - 1) = 0 := by omega
    rw [hmin]
    simp only [Int.toNat_zero]
    exact pySort_head_eq_pyMin data hd
  · rw [ib_percentile_eq_getD data 100 hd (by norm_num)]
    have hz : ((pySort data).length : ℚ) * (100 : ℚ) / 100 =
        (((pySort data).length : ℤ) : ℚ) := by push_cast; ring
    rw [hz, Int.floor_intCast]
    have hmin : min ((pySort data).length : ℤ) (((pySort data).length : ℤ) - 1) =
        ((pySort data).length : ℤ) - 1 := by omega
    rw [hmin]
    have htn : ((((pySort data).length : ℤ) - 1)).toNat = (pySort data).length - 1 := by
      omega
    rw [htn]
    exact pySort_last_eq_pyMax data hd
  · rw [ib_percentile_eq_getD data p hd h0,
      ib_percentile_eq_getD data q hd (le_trans h0 hpq)]
    have hfm : ⌊((pySort data).length : ℚ) * p / 100⌋ ≤
        ⌊((pySort data).length : ℚ) * q / 100⌋ := by
      apply Int.floor_mono
      apply div_le_div_of_nonneg_right _ (by norm_num)
      · exact mul_le_mul_of_nonneg_left hpq (by linarith)
    have hqb : (min (⌊((pySort data).length : ℚ) * q / 100⌋)
        (((pySort data).length : ℤ) - 1)).toNat < (pySort data).length := by
      have : min (⌊((pySort data).length : ℚ) * q / 100⌋)
          (((pySort data).length : ℤ) - 1) ≤ ((pySort data).length : ℤ) - 1 :=
        min_le_right _ _
      omega
    apply sorted_getD_mono hs _ hqb
    have : min (⌊((pySort data).length : ℚ) * p / 100⌋)
        (((pySort data).length : ℤ) - 1) ≤
          min (⌊((pySort data).length : ℚ) * q / 100⌋)
            (((pySort data).length : ℤ) - 1) :=
      min_le_min hfm le_rfl
    omega

/-- Witness for C8 on the buffer `[3, 1, 2]` with `p = 10`, `q = 90`. -/
theorem percentile_min_max_monotone_witness :
    BenchmarkLLM.percentile [3, 1, 2] 0 = 1 ∧
    BenchmarkLLM.percentile [3, 1, 2] 100 = 3 ∧
    BenchmarkLLM.percentile [3, 1, 2] 10 ≤ BenchmarkLLM.percentile [3, 1, 2] 90 := by
  have h := percentile_min_max_monotone [3, 1, 2] 10 90 (by simp) (by norm_num)
    (by norm_num) (by norm_num)
  refine ⟨?_, ?_, h.2.2.1⟩
  · rw [h.1]
    norm_num [pyMin]
  · rw [h.2.1]
    norm_num [pyMax]

/-! ## C9: empty buffers and the degenerate summary -/

/-- C9: both percentile implementations return 0 on an empty buffer for every
`p`, and a summary computed over a result set with no successful sample still
reports the total and successful counts while every percentile field is 0;
`calculate_metrics` is a total function with no error path. -/
theorem percentile_empty_and_degenerate_summary (p : ℚ)
    (results : List BenchmarkLLM.RequestResult) (concurrency : ℕ) (duration : ℚ)
    (hfail : ∀ r ∈ results, r.success = false) :
    BenchmarkLLM.percentile [] p = 0 ∧
    InferenceBenchmark.percentile [] p = 0 ∧
    (BenchmarkLLM.calculate_metrics results concurrency duration).total_requests =
      results.length ∧
    (BenchmarkLLM.calculate_metrics results concurrency duration).successful_requests =
      0 ∧
    (BenchmarkLLM.calculate_metrics results concurrency duration).failed_requests =
      results.length ∧
    (BenchmarkLLM.calculate_metrics results concurrency duration).ttft_p50 = 0 ∧
    (BenchmarkLLM.calculate_metrics results concurrency duration).ttft_p90 = 0 ∧
    (BenchmarkLLM.calculate_metrics results concurrency duration).ttft_p99 = 0 ∧
    (BenchmarkLLM.calculate_metrics results concurrency duration).latency_p50 = 0 ∧
    (BenchmarkLLM.calculate_metrics results concurrency duration).latency_p90 = 0 ∧
    (BenchmarkLLM.calculate_metrics results concurrency duration).latency_p99 = 0 ∧
    (BenchmarkLLM.calculate_metrics results concurrency duration).test_duration_sec =
      duration := by
  have hfilter : results.filter (·.success) = [] := by
    rw [List.filter_eq_nil_iff]
    intro a ha
    simp [hfail a ha]
  have hcm : BenchmarkLLM.calculate_metrics results concurrency duration =
      { concurrency := concurrency
        total_requests := results.length
        successful_requests := 0
        failed_requests := results.length
        ttft_min := 0, ttft_max := 0, ttft_mean := 0
        ttft_p50 := 0, ttft_p90 := 0, ttft_p99 := 0
        latency_min := 0, latency_max := 0, latency_mean := 0
        latency_p50 := 0, latency_p90 := 0, latency_p99 := 0
        tokens_per_second_mean := 0
        total_throughput := 0
        test_duration_sec := duration } := by
    simp only [BenchmarkLLM.calculate_metrics, hfilter, if_pos]
  rw [hcm]
  exact ⟨by simp [BenchmarkLLM.percentile], by simp [InferenceBenchmark.percentile],
    rfl, rfl, rfl, rfl, rfl, rfl, rfl, rfl, rfl, rfl⟩

/-- Witness for C9: one failed request, `p = 42`. -/
theorem percentile_empty_and_degenerate_summary_witness :
    BenchmarkLLM.percentile [] 42 = 0 ∧
    (BenchmarkLLM.calculate_metrics [⟨false, 1, 2, 3, 4⟩] 2 7).total_requests = 1 ∧
    (BenchmarkLLM.calculate_metrics [⟨false, 1, 2, 3, 4⟩] 2 7).successful_requests = 0 ∧
    (BenchmarkLLM.calculate_metrics [⟨false, 1, 2, 3, 4⟩] 2 7).ttft_p99 = 0 := by
  have h := percentile_empty_and_degenerate_summary 42 [⟨false, 1, 2, 3, 4⟩] 2 7
    (by intro r hr; rcases List.mem_singleton.mp hr with rfl; rfl)
  exact ⟨h.1, h.2.2.1, h.2.2.2.1, h.2.2.2.2.2.2.2.1⟩

/-! ## C7: rejected admissions and benchmark samples -/

namespace LoadTestComparison

theorem phase1_foldl (outcomes : List CreateOutcome) :
    ∀ acc : Phase1Counts,
      outcomes.foldl
        (fun acc o =>
          match o with
          | .ok sid =>
              { acc with
                  sessions_created := acc.sessions_created + 1
                  session_ids := acc.session_ids ++ [sid] }
          | .rejected _ =>
              { acc with sessions_rejected := acc.sessions_rejected + 1 })
        acc =
      { sessions_created := acc.sessions_created + countOk outcomes
        sessions_rejected := acc.sessions_rejected + countRejectedAttempts outcomes
        session_ids := acc.session_ids ++ createdIds outcomes } := by
  induction outcomes with
  | nil =>
      intro acc
      simp [countOk, countRejectedAttempts, createdIds]
  | cons o outcomes ih =>
      intro acc
      cases o with
      | ok sid =>
          rw [List.foldl_cons, ih]
          simp [countOk, countRejectedAttempts, createdIds, isOkOutcome,
            List.filter_cons, List.filterMap_cons]
          omega
      | rejected reason =>
          rw [List.foldl_cons, ih]
          simp [countOk, countRejectedAttempts, createdIds, isOkOutcome,
            List.filter_cons, List.filterMap_cons]
          omega

theorem phase1_eq (outcomes : List CreateOutcome) :
    phase1 outcomes =
      { sessions_created := countOk outcomes
        sessions_rejected := countRejectedAttempts outcomes
        session_ids := createdIds outcomes } := by
  unfold phase1
  rw [phase1_foldl outcomes ⟨0, 0, []⟩]
  simp

theorem createdIds_length (outcomes : List CreateOutcome) :
    (createdIds outcomes).length = countOk outcomes := by
  induction outcomes with
  | nil => rfl
  | cons o outcomes ih =>
      cases o <;>
        simp [createdIds, countOk, isOkOutcome, List.filter_cons,
          List.filterMap_cons] at ih ⊢ <;>
        omega

theorem phase2_length (rps : ℕ) (f : ℕ → ℕ → SendOutcome) :
    ∀ ids : List ℕ, (phase2 ids rps f).length = ids.length * rps := by
  intro ids
  induction ids with
  | nil => simp [phase2]
  | cons sid ids ih =>
      simp only [phase2, List.flatMap_cons, List.length_append, List.length_map,
        List.length_range, List.length_cons] at ih ⊢
      rw [ih]
      ring

theorem latencies_errors_partition :
    ∀ rs : List SendOutcome, (latenciesOf rs).length + errorsOf rs = rs.length := by
  intro rs
  induction rs with
  | nil => rfl
  | cons r rs ih =>
      cases r <;>
        simp [latenciesOf, errorsOf, List.filterMap_cons, List.filter_cons] at ih ⊢ <;>
        omega

end LoadTestComparison

/-- C7 (amended): in the dual-SKU load test, every rejected admission is
counted in `sessions_rejected` — a tally separate from the failed-dispatch
counter `errors` — and contributes no benchmark sample: the total number of
recorded requests is the number of created sessions times the requests per
session, and appending one more rejected attempt bumps the rejection tally by
one while leaving the sample count unchanged.  (In `benchmark_inference.py`
the claim fails — see the counterexample.) -/
theorem load_test_rejected_zero_samples
    (outcomes : List LoadTestComparison.CreateOutcome) (rps : ℕ)
    (f : ℕ → ℕ → LoadTestComparison.SendOutcome) (reason : String) :
    (LoadTestComparison.run_load_test outcomes rps f).sessions_created =
      LoadTestComparison.countOk outcomes ∧
    (LoadTestComparison.run_load_test outcomes rps f).sessions_rejected =
      LoadTestComparison.countRejectedAttempts outcomes ∧
    (LoadTestComparison.run_load_test outcomes rps f).total_requests =
      LoadTestComparison.countOk outcomes * rps ∧
    (LoadTestComparison.run_load_test outcomes rps f).errors ≤
      (LoadTestComparison.run_load_test outcomes rps f).total_requests ∧
    (LoadTestComparison.run_load_test (outcomes ++ [.rejected reason]) rps
        f).total_requests =
      (LoadTestComparison.run_load_test outcomes rps f).total_requests ∧
    (LoadTestComparison.run_load_test (outcomes ++ [.rejected reason]) rps
        f).sessions_rejected =
      (LoadTestComparison.run_load_test outcomes rps f).sessions_rejected + 1 := by
  have htotal :
      ∀ os : List LoadTestComparison.CreateOutcome,
        (LoadTestComparison.run_load_test os rps f).total_requests =
          LoadTestComparison.countOk os * rps := by
    intro os
    show (LoadTestComparison.latenciesOf _).length + LoadTestComparison.errorsOf _ =
      _
    rw [LoadTestComparison.latencies_errors_partition,
      LoadTestComparison.phase2_length, LoadTestComparison.phase1_eq]
    rw [LoadTestComparison.createdIds_length]
  have hcountOk_append :
      LoadTestComparison.countOk (outcomes ++ [.rejected reason]) =
        LoadTestComparison.countOk outcomes := by
    simp [LoadTestComparison.countOk, List.filter_append,
      LoadTestComparison.isOkOutcome]
  have hcountRej_append :
      LoadTestComparison.countRejectedAttempts (outcomes ++ [.rejected reason]) =
        LoadTestComparison.countRejectedAttempts outcomes + 1 := by
    simp [LoadTestComparison.countRejectedAttempts, List.filter_append,
      LoadTestComparison.isOkOutcome]
  refine ⟨?_, ?_, htotal outcomes, ?_, ?_, ?_⟩
  · show (LoadTestComparison.phase1 outcomes).sessions_created = _
    rw [LoadTestComparison.phase1_eq]
  · show (LoadTestComparison.phase1 outcomes).sessions_rejected = _
    rw [LoadTestComparison.phase1_eq]
  · exact Nat.le_add_left _ _
  · rw [htotal, htotal, hcountOk_append]
  · show (LoadTestComparison.phase1 _).sessions_rejected =
      (LoadTestComparison.phase1 _).sessions_rejected + 1
    rw [LoadTestComparison.phase1_eq, LoadTestComparison.phase1_eq,
      hcountRej_append]

/-- C7 counterexample: in `benchmark_inference.py`, a virtual client whose
session admission is rejected does not terminate early — with
`requests_per_user = 3` it still contributes 3 samples, not 0. -/
theorem user_session_rejected_still_contributes_samples :
    (InferenceBenchmark.user_session
        (.rejected "status_503") 3 (fun _ _ => .failed 0)).length = 3 ∧
    (InferenceBenchmark.user_session
        (.rejected "status_503") 3 (fun _ _ => .failed 0)).length ≠ 0 := by
  constructor <;> simp [InferenceBenchmark.user_session]
